import Mathlib

/-!
Verification of the slot availability resolution engine of `src/backend/index.mjs`
(aok backend). The JavaScript source is shallowly embedded: each backend function
becomes a Lean definition of the same name; JS strings become `String`, JS `Map`
becomes an association list with `set`-replaces semantics, nullable values become
`Option`, thrown exceptions become `Except`, and the upstream HTTP service becomes
an explicit oracle argument. ISO `YYYY-MM-DD` date strings are modelled by the
structure `CivilDate` together with the formatter `isoFormat` (the backend only
ever produces such strings via its own zero-padding formatter, so the codec is a
bijection on the values that occur).
-/

namespace Aok

/-! ### Character / string helpers

`digitChar` and `pad2` embed `String(n).padStart(2, "0")` for `n ≤ 99`,
which is the only range the backend ever formats (hours, minutes, months, days).
`jsLtChars` is the JavaScript `<` on strings: lexicographic comparison of
code units; on the character lists of Lean strings this is lexicographic
comparison of code points, which agrees with JS on every comparison the
backend performs (see `getDayBand`). -/

def digitVal (c : Char) : Nat := c.toNat - 48

def digitChar (n : Nat) : Char := Char.ofNat (48 + n)

def isDigitCh (c : Char) : Bool := 48 ≤ c.toNat && c.toNat ≤ 57

def pad2 (n : Nat) : String := ⟨[digitChar (n / 10), digitChar (n % 10)]⟩

def jsLtChars : List Char → List Char → Bool
  | [], [] => false
  | [], _ :: _ => true
  | _ :: _, [] => false
  | a :: as, b :: bs =>
    if a.toNat < b.toNat then true
    else if b.toNat < a.toNat then false
    else jsLtChars as bs

def jsLt (s t : String) : Bool := jsLtChars s.data t.data

/-! ### Calendar model

`CivilDate` models a proleptic Gregorian calendar date, the semantics of the
UTC-noon `Date` objects the backend builds in `addDaysIso`.  JS
`dt.setUTCDate(dt.getUTCDate() + delta)` normalizes an out-of-range day of
month across month and year boundaries; stepping one day at a time with
`nextDay` / `prevDay` is exactly that normalization. -/

structure CivilDate where
  y : Nat
  m : Nat
  d : Nat
deriving DecidableEq, Repr

def isLeap (y : Nat) : Bool := y % 4 == 0 && (y % 100 != 0 || y % 400 == 0)

def daysInMonth (y m : Nat) : Nat :=
  if m = 2 then (if isLeap y then 29 else 28)
  else if m = 4 || m = 6 || m = 9 || m = 11 then 30
  else 31

def CivilDate.valid (dt : CivilDate) : Prop :=
  1 ≤ dt.y ∧ 1 ≤ dt.m ∧ dt.m ≤ 12 ∧ 1 ≤ dt.d ∧ dt.d ≤ daysInMonth dt.y dt.m

instance (dt : CivilDate) : Decidable dt.valid := by
  unfold CivilDate.valid; infer_instance

def prevDay (dt : CivilDate) : CivilDate :=
  if 1 < dt.d then ⟨dt.y, dt.m, dt.d - 1⟩
  else if 1 < dt.m then ⟨dt.y, dt.m - 1, daysInMonth dt.y (dt.m - 1)⟩
  else ⟨dt.y - 1, 12, 31⟩

def nextDay (dt : CivilDate) : CivilDate :=
  if dt.d < daysInMonth dt.y dt.m then ⟨dt.y, dt.m, dt.d + 1⟩
  else if dt.m < 12 then ⟨dt.y, dt.m + 1, 1⟩
  else ⟨dt.y + 1, 1, 1⟩

/-- Embeds `addDaysIso(isoDate, deltaDays)` of `index.mjs`: Gregorian date
arithmetic via JS `Date` UTC fields, i.e. `delta` single-day normalization
steps. -/
def addDaysIso (dt : CivilDate) (delta : Int) : CivilDate :=
  if 0 ≤ delta then nextDay^[delta.toNat] dt else prevDay^[(-delta).toNat] dt

/-- Embeds the template string
`` `${y}-${pad2 m}-${pad2 d}` `` used by `addDaysIso` to render dates (year
unpadded by `getUTCFullYear`, month and day zero-padded to two digits). -/
def isoFormat (dt : CivilDate) : String :=
  toString dt.y ++ "-" ++ pad2 dt.m ++ "-" ++ pad2 dt.d

/-! ### HH:MM times (kept as strings, as in the source) -/

/-- `Number(startHHMM.slice(0, 2))` for a well-formed `HH:MM` string. -/
def startHourNum (s : String) : Nat :=
  match s.data with
  | h1 :: h2 :: _ => digitVal h1 * 10 + digitVal h2
  | _ => 0

/-- `hhmm.split(":").map(Number)` for a well-formed `HH:MM` string. -/
def hhmmParse (s : String) : Nat × Nat :=
  match s.data with
  | h1 :: h2 :: _ :: m1 :: m2 :: _ =>
    (digitVal h1 * 10 + digitVal h2, digitVal m1 * 10 + digitVal m2)
  | _ => (0, 0)

/-- Well-formed zero-padded `HH:MM` string with hour < 24 and minute < 60. -/
def validHHMM (s : String) : Bool :=
  match s.data with
  | [h1, h2, c, m1, m2] =>
    isDigitCh h1 && isDigitCh h2 && (c == ':') && isDigitCh m1 && isDigitCh m2 &&
      decide (digitVal h1 * 10 + digitVal h2 < 24) &&
      decide (digitVal m1 * 10 + digitVal m2 < 60)
  | _ => false

/-- Total minutes since midnight denoted by an `HH:MM` string. -/
def hhmmVal (s : String) : Nat := (hhmmParse s).1 * 60 + (hhmmParse s).2

/-- Embeds `shiftMinutes(hhmm, delta)`.  JS `%` truncates toward zero
(`Int.tmod`); the source adds `1440` before taking `% 1440` so that the
dividend is nonnegative for every `delta ≥ -1440`, where the embedding is
exact (`toNat` is the identity there). -/
def shiftMinutes (hhmm : String) (delta : Int) : String :=
  let p := hhmmParse hhmm
  let total := (Int.tmod ((p.1 : Int) * 60 + (p.2 : Int) + delta + 1440) 1440).toNat
  pad2 (total / 60) ++ ":" ++ pad2 (total % 60)

/-- `slotTime1`: first 1-hour probe, `start + SLOT_OFFSET_MINUTES`.  The env
constant `SLOT_OFFSET_MINUTES` is passed explicitly as `off`. -/
def slotTime1 (off : Int) (startHHMM : String) : String := shiftMinutes startHHMM off

/-- `slotTime2`: second 1-hour probe, `start + 60 + SLOT_OFFSET_MINUTES`. -/
def slotTime2 (off : Int) (startHHMM : String) : String := shiftMinutes startHHMM (60 + off)

/-- Embeds `realDateForStart(uiDateIso, startHHMM)`: slots whose start hour is
before 6 belong to the previous calendar day. -/
def realDateForStart (uiDate : CivilDate) (startHHMM : String) : CivilDate :=
  if startHourNum startHHMM < 6 then addDaysIso uiDate (-1) else uiDate

/-- Embeds `getDayBand(startHHMM)`: JS
`startHHMM >= "08:00" && startHHMM < "16:00"`, where `a >= b` is `!(a < b)`. -/
def getDayBand (startHHMM : String) : String :=
  if (!jsLt startHHMM "08:00") && jsLt startHHMM "16:00" then "day" else "night"

/-- Embeds `getDayType(dateIso)`: weekend is Fri/Sat/Sun by `getUTCDay`.
Day of week of the proleptic Gregorian date via Sakamoto's method
(0 = Sunday .. 6 = Saturday, as in JS). -/
def dayOfWeek (dt : CivilDate) : Nat :=
  let t := [0, 3, 2, 5, 0, 3, 5, 1, 4, 6, 2, 4]
  let y := if dt.m < 3 then dt.y - 1 else dt.y
  (y + y / 4 + y / 400 + t.getD (dt.m - 1) 0 + dt.d - y / 100) % 7

def getDayType (dt : CivilDate) : String :=
  let dow := dayOfWeek dt
  if dow == 5 || dow == 6 || dow == 0 then "weekend" else "weekday"

/-! ### Configuration (`rooms_services.json`) -/

structure Room where
  id : String
  title : String
  type : String
  group : String
deriving DecidableEq, Repr

/-- The nested service-id tables; a `none` leaf models an absent path in the
JSON (optional chaining yielding `undefined`). -/
structure Services where
  elite : String → String → Option String
  comfort : String → String → String → Option String

structure Config where
  rooms : List Room
  services : Services

/-- `splitRooms`: the comfort pool. -/
def comfortRooms (rooms : List Room) : List Room :=
  rooms.filter (fun r => r.type == "comfort")

/-- `splitRooms`: the first elite room, if any. -/
def eliteRoom (rooms : List Room) : Option Room :=
  rooms.find? (fun r => r.type == "elite")

/-- Embeds `pickEliteServiceId`; `if (!id) throw` also rejects an empty-string
leaf (falsy in JS). -/
def pickEliteServiceId (config : Config) (realDate : CivilDate) (startHHMM : String) :
    Except String String :=
  match config.services.elite (getDayType realDate) (getDayBand startHHMM) with
  | some id =>
    if id = "" then .error ("Missing elite service_id for " ++ getDayType realDate)
    else .ok id
  | none => .error ("Missing elite service_id for " ++ getDayType realDate)

/-- Embeds `pickComfortServiceId`. -/
def pickComfortServiceId (config : Config) (group : String) (realDate : CivilDate)
    (startHHMM : String) : Except String String :=
  match config.services.comfort group (getDayType realDate) (getDayBand startHHMM) with
  | some id =>
    if id = "" then .error ("Missing comfort service_id for " ++ group)
    else .ok id
  | none => .error ("Missing comfort service_id for " ++ group)

/-! ### Upstream occupancy records -/

/-- The `rental_id` field of an upstream record as a JS value:
`null`, `undefined` (field absent), a string, or a number (integral in every
observed payload). -/
inductive RentalId
  | rnull
  | rundefined
  | rstr (s : String)
  | rnum (n : Int)
deriving DecidableEq, Repr

/-- One element of the upstream `data` array.  `price` is `some p` exactly
when the field is present with a numeric value (`typeof price === "number"`). -/
structure RtItem where
  date_time : String
  rental_id : RentalId
  price : Option Int
deriving DecidableEq, Repr

/-- Embeds `isFreeItem(it)`: `!it` is falsy for an absent record, and a present
record is free iff `rental_id === null || undefined || "" || 0`. -/
def isFreeItem : Option RtItem → Bool
  | none => false
  | some it =>
    match it.rental_id with
    | .rnull => true
    | .rundefined => true
    | .rstr s => s == ""
    | .rnum n => n == 0

structure SlotInfo where
  date_time : String
  found : Bool
  rental_id : RentalId
  status : String
deriving DecidableEq, Repr

/-- Embeds `slotInfo(it, date, time)`; `it?.rental_id ?? null` collapses an
absent field to `null`. -/
def slotInfo (it : Option RtItem) (date time : String) : SlotInfo :=
  match it with
  | none =>
    { date_time := date ++ " " ++ time, found := false, rental_id := .rnull,
      status := "missing" }
  | some x =>
    { date_time := date ++ " " ++ time, found := true,
      rental_id := match x.rental_id with | .rundefined => .rnull | r => r,
      status := if isFreeItem (some x) then "free" else "busy" }

structure Verdict where
  status : String
  reason : Option String
deriving DecidableEq, Repr

/-- Embeds `evaluateRoomStatus(slot1, slot2)`: missing before busy before free. -/
def evaluateRoomStatus (slot1 slot2 : SlotInfo) : Verdict :=
  if slot1.status == "missing" || slot2.status == "missing" then
    { status := "missing", reason := some "slot_missing" }
  else if slot1.status == "busy" || slot2.status == "busy" then
    { status := "busy", reason := some "occupied" }
  else
    { status := "free", reason := none }

/-- Embeds `pickPrice(it1, it2)`: probe 1's numeric price, else probe 2's. -/
def pickPrice (it1 it2 : Option RtItem) : Option Int :=
  match it1.bind RtItem.price with
  | some p => some p
  | none => it2.bind RtItem.price

/-! ### Map / index model

JS `Map` is modelled as an association list; `Map.set` replaces the value in
place at an existing key (keeping insertion order) and appends otherwise;
`Map.get` returns the (unique) value at the key. -/

def mapSet {α : Type} (m : List (String × α)) (k : String) (v : α) : List (String × α) :=
  if m.any (fun e => e.1 == k) then
    m.map (fun e => if e.1 == k then (k, v) else e)
  else m ++ [(k, v)]

def mapGet {α : Type} (m : List (String × α)) (k : String) : Option α :=
  (m.find? (fun e => e.1 == k)).map (·.2)

abbrev Index := List (String × RtItem)

/-- Embeds `parseDateTime(item)`: the prefix regex
`^(\d{4}-\d{2}-\d{2})[ T](\d{2}:\d{2})`; `none` models the `{date:"", time:""}`
miss that the caller skips. -/
def parseDateTime (s : String) : Option (String × String) :=
  match s.data with
  | y1 :: y2 :: y3 :: y4 :: c1 :: mo1 :: mo2 :: c2 :: d1 :: d2 :: sep :: h1 :: h2 :: c3 :: mi1 :: mi2 :: _ =>
    if isDigitCh y1 && isDigitCh y2 && isDigitCh y3 && isDigitCh y4 && (c1 == '-') &&
        isDigitCh mo1 && isDigitCh mo2 && (c2 == '-') && isDigitCh d1 && isDigitCh d2 &&
        ((sep == ' ') || (sep == 'T')) && isDigitCh h1 && isDigitCh h2 && (c3 == ':') &&
        isDigitCh mi1 && isDigitCh mi2 then
      some (⟨[y1, y2, y3, y4, c1, mo1, mo2, c2, d1, d2]⟩, ⟨[h1, h2, c3, mi1, mi2]⟩)
    else none
  | _ => none

/-- The `byKey` index built by `fetchIndexedRentalTimes`: items with an
unparsable `date_time` are dropped, the rest keyed by `` `${d}|${t}` ``. -/
def buildIndex (items : List RtItem) : Index :=
  items.foldl
    (fun acc it =>
      match parseDateTime it.date_time with
      | some (d, t) => mapSet acc (d ++ "|" ++ t) it
      | none => acc)
    []

/-! ### Upstream HTTP boundary (`apiGet`) -/

/-- The parsed JSON body of an upstream response, restricted to the fields the
backend reads.  `result` is `some false` exactly when the body carries the
in-band `result: false` failure signal. -/
structure UpstreamBody where
  result : Option Bool
  error_message : Option String
  data : Option (List RtItem)

/-- An upstream HTTP response: `ok`/`status` from `fetch`, `body` is the
parsed JSON (`none` when the text failed to parse). -/
structure HttpResp where
  ok : Bool
  status : Nat
  body : Option UpstreamBody

inductive ApiErr
  | httpError (status : Nat)
  | resultFalse (message : String)
deriving DecidableEq, Repr

/-- Embeds `extractUpstreamError(json)`. -/
def extractUpstreamError (body : Option UpstreamBody) : Option ApiErr :=
  match body with
  | some b =>
    if b.result = some false then
      some (.resultFalse (b.error_message.getD "Upstream returned result=false"))
    else none
  | none => none

/-- Embeds `apiGet`: HTTP-level failure (`!resp.ok`) throws first, then the
in-band `result:false` signal throws; otherwise the parsed body is returned. -/
def apiGet (resp : HttpResp) : Except ApiErr (Option UpstreamBody) :=
  if !resp.ok then .error (.httpError resp.status)
  else
    match extractUpstreamError resp.body with
    | some e => .error e
    | none => .ok resp.body

def normalizeRentalTimesPayload : Option UpstreamBody → List RtItem
  | some b => b.data.getD []
  | none => []

/-- The upstream service for one grid request, as a deterministic snapshot:
the response to the occupancy query for a `(service_id, room_id)` pair (the
`club_id` and date window are fixed for the whole request). -/
abbrev Oracle := String → String → HttpResp

/-- Embeds `fetchIndexedRentalTimes`. -/
def fetchIndexedRentalTimes (oracle : Oracle) (service_id room_id : String) :
    Except ApiErr Index :=
  (apiGet (oracle service_id room_id)).map
    (fun b => buildIndex (normalizeRentalTimesPayload b))

/-! ### Grid handlers -/

def STARTS : List String :=
  ["06:00", "08:00", "10:00", "12:00", "14:00", "16:00",
   "18:00", "20:00", "22:00", "00:00", "02:00", "04:00"]

/-- The `` `${sid}|${room.id}` `` key of the `pairs` map. -/
def pairKey (p : String × String) : String := p.1 ++ "|" ++ p.2

/-- The `` `${realDate}|${t}` `` key of a probe lookup. -/
def probeKey (realDate : CivilDate) (t : String) : String :=
  isoFormat realDate ++ "|" ++ t

/-- `byKey ? byKey.get(ключ) : null` for one probe. -/
def probeLookup (byKey : Option Index) (realDate : CivilDate) (t : String) : Option RtItem :=
  match byKey with
  | some ix => mapGet ix (probeKey realDate t)
  | none => none

/-- The deduplicating `pairs` map: every resolved `(service_id, room_id)` pair
is `set` under its string key; `Array.from(pairs.values())` is the value list
in key-insertion order, which is how the fetch fan-out enumerates it. -/
def buildPairs (entries : List (String × String)) : List (String × (String × String)) :=
  entries.foldl (fun m p => mapSet m (pairKey p) p) []

/-- The comfort handler's inner loop over rooms for one slot: resolve each
room's service id (a failure throws out of the whole request). -/
def resolveComfortRooms (config : Config) (realDate : CivilDate) (start : String) :
    List Room → Except String (List (String × String))
  | [] => .ok []
  | room :: rest => do
    let sid ← pickComfortServiceId config room.group realDate start
    let tail ← resolveComfortRooms config realDate start rest
    pure ((sid, room.id) :: tail)

/-- The comfort handler's pairs loop: for every slot start and every comfort
room, the resolved `(service_id, room_id)` entry, in iteration order. -/
def comfortEntries (config : Config) (uiDate : CivilDate) :
    List String → Except String (List (String × String))
  | [] => .ok []
  | start :: rest => do
    let es ← resolveComfortRooms config (realDateForStart uiDate start) start
      (comfortRooms config.rooms)
    let tail ← comfortEntries config uiDate rest
    pure (es ++ tail)

/-- The elite handler's pairs loop (single room, one entry per slot start). -/
def eliteEntries (config : Config) (uiDate : CivilDate) (eliteId : String) :
    List String → Except String (List (String × String))
  | [] => .ok []
  | start :: rest => do
    let sid ← pickEliteServiceId config (realDateForStart uiDate start) start
    let tail ← eliteEntries config uiDate eliteId rest
    pure ((sid, eliteId) :: tail)

/-- The fetch fan-out joined by `Promise.all`: one `fetchIndexedRentalTimes`
per deduplicated pair, each result stored in `idxByPair` under the pair's key;
a single failure rejects the whole batch. -/
def fetchAllPairs (oracle : Oracle) :
    List (String × String) → Except ApiErr (List (String × Index))
  | [] => .ok []
  | p :: rest => do
    let ix ← fetchIndexedRentalTimes oracle p.1 p.2
    let tail ← fetchAllPairs oracle rest
    pure ((pairKey p, ix) :: tail)

/-- Elite per-slot metadata (`meta.push({start, realDate, service_id, room_id})`). -/
structure SlotMeta where
  start : String
  realDate : CivilDate
  service_id : String
  room_id : String
deriving DecidableEq, Repr

def eliteMeta (config : Config) (uiDate : CivilDate) (eliteId : String) :
    List String → Except String (List SlotMeta)
  | [] => .ok []
  | start :: rest => do
    let sid ← pickEliteServiceId config (realDateForStart uiDate start) start
    let tail ← eliteMeta config uiDate eliteId rest
    pure (⟨start, realDateForStart uiDate start, sid, eliteId⟩ :: tail)

/-- The two probe items for one room and slot, looked up in the pair's index
under the **same** `realDate` for both probe times. -/
def roomSlotItems (idxByPair : List (String × Index)) (off : Int) (realDate : CivilDate)
    (start : String) (sid roomId : String) : Option RtItem × Option RtItem :=
  let byKey := mapGet idxByPair (pairKey (sid, roomId))
  (probeLookup byKey realDate (slotTime1 off start),
   probeLookup byKey realDate (slotTime2 off start))

/-- The verdict for one room and slot (`evaluateRoomStatus(slot1, slot2)` on
the two probe `slotInfo`s). -/
def roomVerdict (idxByPair : List (String × Index)) (off : Int) (realDate : CivilDate)
    (start : String) (sid roomId : String) : Verdict :=
  let its := roomSlotItems idxByPair off realDate start sid roomId
  evaluateRoomStatus
    (slotInfo its.1 (isoFormat realDate) (slotTime1 off start))
    (slotInfo its.2 (isoFormat realDate) (slotTime2 off start))

structure EliteCell where
  free : Nat
  price : Option Int
  service_id : String
  room_id : String
  total_count : Nat
  reason : Option String
deriving DecidableEq, Repr

/-- One cell of the elite grid (`grid[m.start] = {...}`). -/
def eliteCell (idxByPair : List (String × Index)) (off : Int) (m : SlotMeta) : EliteCell :=
  let its := roomSlotItems idxByPair off m.realDate m.start m.service_id m.room_id
  let status := roomVerdict idxByPair off m.realDate m.start m.service_id m.room_id
  { free := if status.status == "free" then 1 else 0
    price := pickPrice its.1 its.2
    service_id := m.service_id
    room_id := m.room_id
    total_count := 1
    reason := status.reason }

inductive HandlerErr
  | config (message : String)
  | api (e : ApiErr)
deriving DecidableEq, Repr

/-- `GET /api/availability_grid_elite`, after request validation: the grid as
an association list from slot start to cell, or the error of the single
`catch`. -/
def eliteHandler (config : Config) (oracle : Oracle) (off : Int) (uiDate : CivilDate) :
    Except HandlerErr (List (String × EliteCell)) := do
  match eliteRoom config.rooms with
  | none => throw (.config "Elite room not found in rooms_services.json")
  | some elite => do
    let entries ← (eliteEntries config uiDate elite.id STARTS).mapError HandlerErr.config
    let meta ← (eliteMeta config uiDate elite.id STARTS).mapError HandlerErr.config
    let idxByPair ← (fetchAllPairs oracle ((buildPairs entries).map Prod.snd)).mapError
      HandlerErr.api
    pure (meta.map (fun m => (m.start, eliteCell idxByPair off m)))

structure ComfortCell where
  free_count : Nat
  busy_count : Nat
  total_count : Nat
  min_price : Option Int
deriving DecidableEq, Repr

structure ComfortAcc where
  free_count : Nat
  busy_count : Nat
  min_price : Option Int
deriving DecidableEq, Repr

/-- `min_price` folding of the source: a free room's known price is min-ed
into the accumulator (`Math.min`), an unknown price leaves it unchanged. -/
def comfortMinPrice (acc price : Option Int) : Option Int :=
  match price with
  | none => acc
  | some p =>
    match acc with
    | none => some p
    | some q => some (min q p)

/-- One iteration of the comfort per-slot fold: a free verdict bumps
`free_count` (and folds the price into `min_price`); **any other verdict,
missing included, bumps `busy_count`** (the `else` branch of the source). -/
def comfortRoomStep (config : Config) (idxByPair : List (String × Index)) (off : Int)
    (realDate : CivilDate) (start : String) (acc : ComfortAcc) (room : Room) :
    Except String ComfortAcc := do
  let sid ← pickComfortServiceId config room.group realDate start
  if (roomVerdict idxByPair off realDate start sid room.id).status == "free" then
    pure ⟨acc.free_count + 1, acc.busy_count,
      comfortMinPrice acc.min_price
        (pickPrice (roomSlotItems idxByPair off realDate start sid room.id).1
          (roomSlotItems idxByPair off realDate start sid room.id).2)⟩
  else
    pure ⟨acc.free_count, acc.busy_count + 1, acc.min_price⟩

def comfortFold (config : Config) (idxByPair : List (String × Index)) (off : Int)
    (realDate : CivilDate) (start : String) :
    ComfortAcc → List Room → Except String ComfortAcc
  | acc, [] => .ok acc
  | acc, room :: rest => do
    let acc1 ← comfortRoomStep config idxByPair off realDate start acc room
    comfortFold config idxByPair off realDate start acc1 rest

/-- One cell of the comfort grid (`grid[start] = {free_count, busy_count,
total_count, min_price}`). -/
def comfortCell (config : Config) (idxByPair : List (String × Index)) (off : Int)
    (uiDate : CivilDate) (start : String) : Except String ComfortCell := do
  let realDate := realDateForStart uiDate start
  let acc ← comfortFold config idxByPair off realDate start ⟨0, 0, none⟩
    (comfortRooms config.rooms)
  pure ⟨acc.free_count, acc.busy_count, (comfortRooms config.rooms).length, acc.min_price⟩

def comfortCells (config : Config) (idxByPair : List (String × Index)) (off : Int)
    (uiDate : CivilDate) : List String → Except String (List (String × ComfortCell))
  | [] => .ok []
  | start :: rest => do
    let cell ← comfortCell config idxByPair off uiDate start
    let tail ← comfortCells config idxByPair off uiDate rest
    pure ((start, cell) :: tail)

/-- `GET /api/availability_grid_comfort`, after request validation. -/
def comfortHandler (config : Config) (oracle : Oracle) (off : Int) (uiDate : CivilDate) :
    Except HandlerErr (List (String × ComfortCell)) := do
  if (comfortRooms config.rooms).isEmpty then
    throw (.config "Comfort rooms not found in rooms_services.json")
  let entries ← (comfortEntries config uiDate STARTS).mapError HandlerErr.config
  let idxByPair ← (fetchAllPairs oracle ((buildPairs entries).map Prod.snd)).mapError
    HandlerErr.api
  (comfortCells config idxByPair off uiDate STARTS).mapError HandlerErr.config

/-! ### Spec-side definitions (from the spec's words, for comparison) -/

/-- Spec-side predicate (from the spec's words): a rental identifier signals a
free interval iff it is null, absent, the empty string, or zero. -/
def rentalIdSignalsFree (r : RentalId) : Prop :=
  r = .rnull ∨ r = .rundefined ∨ r = .rstr "" ∨ r = .rnum 0

/-- A service/room id that does not contain the `|` separator used to build
map keys (true of every id in the shipped `rooms_services.json`). -/
def noPipe (s : String) : Prop := '|' ∉ s.data

instance (s : String) : Decidable (noPipe s) := by unfold noPipe; infer_instance

/-- Invariant of the `pairs` map: every stored key is its value's `pairKey`,
and keys are distinct. -/
def pairsInv (m : List (String × (String × String))) : Prop :=
  (∀ e ∈ m, e.1 = pairKey e.2) ∧ (m.map Prod.fst).Nodup

/-- Whether a room's verdict for a slot is `free`, as the grid fold sees it
(`false` when its service id does not resolve, in which case the fold throws
instead of counting anything). -/
def roomFreeB (config : Config) (idxByPair : List (String × Index)) (off : Int)
    (realDate : CivilDate) (start : String) (room : Room) : Bool :=
  match pickComfortServiceId config room.group realDate start with
  | .ok sid => (roomVerdict idxByPair off realDate start sid room.id).status == "free"
  | .error _ => false

/-! ### Concrete scenario data (§8 pooled-missing scenario) -/

/-- Three interchangeable comfort rooms in one pricing group. -/
def cfg3 : Config :=
  { rooms :=
      [⟨"r1", "Room 1", "comfort", "g"⟩,
       ⟨"r2", "Room 2", "comfort", "g"⟩,
       ⟨"r3", "Room 3", "comfort", "g"⟩]
    services :=
      { elite := fun _ _ => none
        comfort := fun group _ _ => if group == "g" then some "S" else none } }

def freeAt (dtm : String) : RtItem := ⟨dtm, .rnull, none⟩

/-- Upstream snapshot for the §8 scenario: no records at all for rooms `r1`
and `r2`, both probe hours free for `r3` (display date 2025-01-20, slot 02:00,
real date 2025-01-19). -/
def oracle3 : Oracle := fun _ rid =>
  if rid == "r3" then
    { ok := true, status := 200
      body := some
        { result := some true, error_message := none
          data := some [freeAt "2025-01-19 02:00", freeAt "2025-01-19 03:00"] } }
  else
    { ok := true, status := 200
      body := some { result := some true, error_message := none, data := some [] } }

/-- An upstream that always fails at the HTTP level. -/
def oracleDown : Oracle := fun _ _ => { ok := false, status := 503, body := none }

/-- The joined `idxByPair` of the §8 scenario (all three fetches succeed). -/
def idx3 : List (String × Index) :=
  (fetchAllPairs oracle3 [("S", "r1"), ("S", "r2"), ("S", "r3")]).toOption.getD []

/-- The resolved (service_id, room_id) entry list of the §8 scenario: 12
slots × 3 rooms, all resolving to service `"S"`. -/
def entries3 : List (String × String) :=
  (comfortEntries cfg3 ⟨2025, 1, 20⟩ STARTS).toOption.getD []

end Aok

namespace Aok

/-! ### Theorems: slot evaluator -/

/-- **C8**: a present upstream occupancy record is classified `"free"` by
`slotInfo` iff its `rental_id` is null, absent, the empty string, or zero;
every other `rental_id` value yields `"busy"`. -/
theorem slotInfo_free_iff (x : RtItem) (d t : String) :
    ((slotInfo (some x) d t).status = "free" ↔ rentalIdSignalsFree x.rental_id) ∧
    ((slotInfo (some x) d t).status = "busy" ↔ ¬ rentalIdSignalsFree x.rental_id) := by
  cases h : x.rental_id <;>
    simp [slotInfo, isFreeItem, rentalIdSignalsFree, h] <;>
    split <;> simp_all

/-- **C2**: `evaluateRoomStatus` checks missing before busy: if either probe
record is absent the verdict is `missing`/`slot_missing` (even if the other is
non-free); if both are present and either is non-free the verdict is
`busy`/`occupied`; if both are present and free the verdict is `free` with no
reason. -/
theorem evaluateRoomStatus_order (it1 it2 : Option RtItem) (d t1 t2 : String) :
    ((it1 = none ∨ it2 = none) →
        evaluateRoomStatus (slotInfo it1 d t1) (slotInfo it2 d t2) =
          { status := "missing", reason := some "slot_missing" }) ∧
    (∀ x1 x2, it1 = some x1 → it2 = some x2 →
        ((isFreeItem it1 = false ∨ isFreeItem it2 = false) →
            evaluateRoomStatus (slotInfo it1 d t1) (slotInfo it2 d t2) =
              { status := "busy", reason := some "occupied" }) ∧
        (isFreeItem it1 = true → isFreeItem it2 = true →
            evaluateRoomStatus (slotInfo it1 d t1) (slotInfo it2 d t2) =
              { status := "free", reason := none })) := by
  constructor
  · intro h
    have h1 : (slotInfo it1 d t1).status = "missing" ∨ (slotInfo it2 d t2).status = "missing" := by
      rcases h with rfl | rfl
      · exact Or.inl rfl
      · exact Or.inr rfl
    unfold evaluateRoomStatus
    rcases h1 with h1 | h1 <;> simp [h1]
  · rintro x1 x2 rfl rfl
    constructor
    · intro h
      unfold evaluateRoomStatus slotInfo
      rcases h with h | h <;> simp [h] <;> split <;> simp
    · intro h1 h2
      unfold evaluateRoomStatus slotInfo
      simp [h1, h2]

/-- Witness for C2 at a concrete input: probe 1 absent, probe 2 busy, verdict
is `missing`, not `busy`. -/
theorem evaluateRoomStatus_order_witness :
    evaluateRoomStatus (slotInfo none "2025-01-20" "14:00")
        (slotInfo (some ⟨"2025-01-20 15:00", .rstr "abc123", none⟩) "2025-01-20" "15:00") =
      { status := "missing", reason := some "slot_missing" } :=
  (evaluateRoomStatus_order none (some ⟨"2025-01-20 15:00", .rstr "abc123", none⟩)
    "2025-01-20" "14:00" "15:00").1 (Or.inl rfl)

/-- **C5**: `pickPrice` prefers probe 1's numeric price, then probe 2's, else
none; in particular (500, 700) selects 500, (no price, 700) selects 700 and
(no price, no price) selects none. -/
theorem pickPrice_priority :
    (∀ (x1 : RtItem) (it2 : Option RtItem) (p : Int),
        x1.price = some p → pickPrice (some x1) it2 = some p) ∧
    (∀ (it1 it2 : Option RtItem) (q : Int),
        it1.bind RtItem.price = none → it2.bind RtItem.price = some q →
          pickPrice it1 it2 = some q) ∧
    (∀ (it1 it2 : Option RtItem),
        it1.bind RtItem.price = none → it2.bind RtItem.price = none →
          pickPrice it1 it2 = none) ∧
    pickPrice (some ⟨"", .rnull, some 500⟩) (some ⟨"", .rnull, some 700⟩) = some 500 ∧
    pickPrice (some ⟨"", .rnull, none⟩) (some ⟨"", .rnull, some 700⟩) = some 700 ∧
    pickPrice (some ⟨"", .rnull, none⟩) (some ⟨"", .rnull, none⟩) = none := by
  refine ⟨?_, ?_, ?_, rfl, rfl, rfl⟩
  · intro x1 it2 p hp; simp [pickPrice, hp]
  · intro it1 it2 q h1 h2; simp [pickPrice, h1, h2]
  · intro it1 it2 h1 h2; simp [pickPrice, h1, h2]

/-- Witness for C5 at a concrete input: probe 1 priced 500 wins. -/
theorem pickPrice_priority_witness :
    pickPrice (some ⟨"x", .rnum 7, some 500⟩) (some ⟨"y", .rnull, some 700⟩) = some 500 :=
  pickPrice_priority.1 ⟨"x", .rnum 7, some 500⟩ (some ⟨"y", .rnull, some 700⟩) 500 rfl

/-! ### Helper lemmas: `Except` plumbing -/

theorem except_bind_ok {ε α β : Type} (x : Except ε α) (f : α → Except ε β) (b : β) :
    (x >>= f) = .ok b ↔ ∃ a, x = .ok a ∧ f a = .ok b := by
  cases x <;> simp [Bind.bind, Except.bind]

theorem except_bind_error {ε α β : Type} (x : Except ε α) (f : α → Except ε β) (e : ε) :
    (x >>= f) = .error e ↔ x = .error e ∨ ∃ a, x = .ok a ∧ f a = .error e := by
  cases x <;> simp [Bind.bind, Except.bind]

theorem except_pure_eq {ε α : Type} (a : α) : (pure a : Except ε α) = .ok a := rfl

theorem except_mapError_ok {ε ε' α : Type} (f : ε → ε') (x : Except ε α) (a : α) :
    x.mapError f = .ok a ↔ x = .ok a := by
  cases x <;> simp [Except.mapError]

theorem except_mapError_error {ε ε' α : Type} (f : ε → ε') (x : Except ε α) (e' : ε') :
    x.mapError f = .error e' ↔ ∃ e, x = .error e ∧ f e = e' := by
  cases x <;> simp [Except.mapError, eq_comm]

/-! ### Theorems: calendar (real date attribution, C3) -/

theorem addDaysIso_neg_one (dt : CivilDate) : addDaysIso dt (-1) = prevDay dt := by
  have h : ¬ (0 : Int) ≤ -1 := by decide
  rw [addDaysIso, if_neg h]
  rfl

theorem prevDay_ne (dt : CivilDate) (h : dt.valid) : prevDay dt ≠ dt := by
  obtain ⟨y, m, d⟩ := dt
  obtain ⟨hy, hm1, hm2, hd1, hd2⟩ := h
  unfold prevDay
  by_cases h1 : 1 < d
  · rw [if_pos h1]
    intro heq
    simp only [CivilDate.mk.injEq] at heq
    omega
  · rw [if_neg h1]
    by_cases h2 : 1 < m
    · rw [if_pos h2]
      intro heq
      simp only [CivilDate.mk.injEq] at heq
      omega
    · rw [if_neg h2]
      intro heq
      simp only [CivilDate.mk.injEq] at heq
      omega

/-- **C3**: for every (valid) display date and every slot start, the real date
used for occupancy lookup is the display date minus one day exactly when the
start hour is below 6, i.e. for the starts 00:00, 02:00, 04:00; for all starts
at or after 06:00 it is the display date itself. -/
theorem realDateForStart_spec (uiDate : CivilDate) (h : uiDate.valid) (s : String)
    (hs : s ∈ STARTS) :
    (startHourNum s < 6 → realDateForStart uiDate s = prevDay uiDate) ∧
    (6 ≤ startHourNum s → realDateForStart uiDate s = uiDate) ∧
    prevDay uiDate ≠ uiDate ∧
    (startHourNum s < 6 ↔ s = "00:00" ∨ s = "02:00" ∨ s = "04:00") := by
  refine ⟨?_, ?_, prevDay_ne uiDate h, ?_⟩
  · intro h6
    rw [realDateForStart, if_pos h6, addDaysIso_neg_one]
  · intro h6
    rw [realDateForStart, if_neg (by omega)]
  · fin_cases hs <;> decide

/-- Witness for C3: display date 2025-01-20, start 02:00 resolves to the
previous day, start 14:00 stays on the display date. -/
theorem realDateForStart_spec_witness :
    realDateForStart ⟨2025, 1, 20⟩ "02:00" = prevDay ⟨2025, 1, 20⟩ ∧
    realDateForStart ⟨2025, 1, 20⟩ "14:00" = ⟨2025, 1, 20⟩ :=
  ⟨(realDateForStart_spec ⟨2025, 1, 20⟩ (by decide) "02:00" (by decide)).1 (by decide),
   (realDateForStart_spec ⟨2025, 1, 20⟩ (by decide) "14:00" (by decide)).2.1 (by decide)⟩

/-! ### Theorems: day band (C4) -/

theorem char_eq_of_toNat_eq {a b : Char} (h : a.toNat = b.toNat) : a = b :=
  Char.eq_of_val_eq (UInt32.ext h)

theorem jsLtChars_iff (l1 : List Char) : ∀ l2, jsLtChars l1 l2 = true ↔ l1 < l2 := by
  induction l1 with
  | nil =>
    intro l2
    cases l2 with
    | nil =>
      rw [show jsLtChars [] [] = false from rfl]
      exact ⟨fun h => absurd h (by decide), fun h => absurd h (List.Lex.not_nil_right _ _)⟩
    | cons b bs =>
      exact ⟨fun _ => List.Lex.nil, fun _ => rfl⟩
  | cons a as ih =>
    intro l2
    cases l2 with
    | nil =>
      rw [show jsLtChars (a :: as) [] = false from rfl]
      exact ⟨fun h => absurd h (by decide), fun h => absurd h (List.Lex.not_nil_right _ _)⟩
    | cons b bs =>
      by_cases hab : a.toNat < b.toNat
      · rw [jsLtChars, if_pos hab]
        exact ⟨fun _ => List.Lex.rel (Char.lt_def.mpr hab), fun _ => rfl⟩
      · by_cases hba : b.toNat < a.toNat
        · rw [jsLtChars, if_neg hab, if_pos hba]
          constructor
          · intro h; cases h
          · intro h
            cases h with
            | cons h2 => omega
            | rel h2 =>
              have h3 : a.toNat < b.toNat := Char.lt_def.mp h2
              omega
        · have hab2 : a = b := char_eq_of_toNat_eq (by omega)
          subst hab2
          rw [jsLtChars, if_neg hab, if_neg hba, ih bs]
          constructor
          · exact List.Lex.cons
          · intro h
            cases h with
            | cons h2 => exact h2
            | rel h2 =>
              have h3 : a.toNat < a.toNat := Char.lt_def.mp h2
              omega

theorem jsLt_iff (s t : String) : jsLt s t = true ↔ s < t := by
  rw [String.lt_iff_toList_lt]
  exact jsLtChars_iff s.data t.data

/-- **C4**: the day band is `"day"` iff the slot start string is
lexicographically at or above `"08:00"` and strictly below `"16:00"`, and
`"night"` otherwise; the wrap-around starts 00:00/02:00/04:00 are `"night"`;
and the elite metadata resolves each slot's service id from the *nominal*
start label (together with its reattributed real date), never from an
offset-shifted probe time (which does not even enter the resolution). -/
theorem getDayBand_spec :
    (∀ s : String, getDayBand s = "day" ↔ ("08:00" ≤ s ∧ s < "16:00")) ∧
    (∀ s : String, getDayBand s = "day" ∨ getDayBand s = "night") ∧
    (getDayBand "00:00" = "night" ∧ getDayBand "02:00" = "night" ∧
      getDayBand "04:00" = "night") ∧
    (∀ config uiDate eliteId starts ms,
        eliteMeta config uiDate eliteId starts = .ok ms →
        ∀ m ∈ ms, pickEliteServiceId config m.realDate m.start = .ok m.service_id ∧
          m.realDate = realDateForStart uiDate m.start) := by
  have hval : ∀ s : String,
      getDayBand s = "day" ↔ ((!jsLt s "08:00") && jsLt s "16:00") = true := by
    intro s
    rw [getDayBand]
    split <;> rename_i hc <;> simp [hc]
  refine ⟨?_, ?_, ⟨by decide, by decide, by decide⟩, ?_⟩
  · intro s
    rw [hval s, Bool.and_eq_true, Bool.not_eq_true']
    constructor
    · rintro ⟨h1, h2⟩
      refine ⟨not_lt.mp (fun hlt => ?_), (jsLt_iff _ _).mp h2⟩
      rw [← jsLt_iff] at hlt
      rw [h1] at hlt
      cases hlt
    · rintro ⟨h1, h2⟩
      refine ⟨?_, (jsLt_iff _ _).mpr h2⟩
      rw [← Bool.not_eq_true]
      intro hlt
      exact absurd ((jsLt_iff _ _).mp hlt) (not_lt.mpr h1)
  · intro s
    rw [getDayBand]
    split
    · exact Or.inl rfl
    · exact Or.inr rfl
  · intro config uiDate eliteId starts
    induction starts with
    | nil =>
      intro ms h m hm
      simp only [eliteMeta] at h
      cases h
      cases hm
    | cons s rest ih =>
      intro ms h m hm
      rw [eliteMeta, except_bind_ok] at h
      obtain ⟨sid, hsid, h⟩ := h
      rw [except_bind_ok] at h
      obtain ⟨tail, htail, h⟩ := h
      rw [except_pure_eq] at h
      cases h
      cases hm with
      | head => exact ⟨hsid, rfl⟩
      | tail _ hm2 => exact ih tail htail m hm2

/-- Witness for C4's elite-metadata conjunct at a concrete resolving config:
a config whose elite table always yields `"E"`. -/
theorem getDayBand_spec_witness :
    getDayBand "00:00" = "night" ∧
    (∀ m ∈ [(⟨"06:00", ⟨2025, 1, 20⟩, "E", "re"⟩ : SlotMeta)],
      pickEliteServiceId
          ⟨[⟨"re", "Elite", "elite", ""⟩],
           ⟨fun _ _ => some "E", fun _ _ _ => none⟩⟩ m.realDate m.start =
        .ok m.service_id ∧
      m.realDate = realDateForStart ⟨2025, 1, 20⟩ m.start) :=
  ⟨getDayBand_spec.2.2.1.1,
   getDayBand_spec.2.2.2
     ⟨[⟨"re", "Elite", "elite", ""⟩], ⟨fun _ _ => some "E", fun _ _ _ => none⟩⟩
     ⟨2025, 1, 20⟩ "re" ["06:00"] _ rfl⟩

/-! ### Theorems: probe-time arithmetic (C10) -/

theorem digitChar_isDigit {k : Nat} (h : k < 10) : isDigitCh (digitChar k) = true := by
  interval_cases k <;> decide

theorem digitVal_digitChar {k : Nat} (h : k < 10) : digitVal (digitChar k) = k := by
  interval_cases k <;> decide

theorem validHHMM_shape (s : String) (hv : validHHMM s = true) :
    ∃ h1 h2 c m1 m2, s.data = [h1, h2, c, m1, m2] ∧
      digitVal h1 * 10 + digitVal h2 < 24 ∧ digitVal m1 * 10 + digitVal m2 < 60 := by
  unfold validHHMM at hv
  split at hv
  · rename_i h1 h2 c m1 m2 heq
    simp only [Bool.and_eq_true, decide_eq_true_eq] at hv
    exact ⟨h1, h2, c, m1, m2, heq, hv.1.2, hv.2⟩
  · exact absurd hv (by decide)

/-- **C10**: `shiftMinutes` works modulo 24 hours: for a valid `HH:MM` start
and any offset `delta ≥ -1440`, the result is a valid zero-padded `HH:MM`
string denoting `(start + delta) mod 1440` minutes; `slotTime1`/`slotTime2`
are `shiftMinutes` at `off` and `60 + off`; a probe that wraps past midnight
(`"22:00"` shifted by `60 + 60` gives `"00:00"`) is looked up with the same
`realDate` as the other probe: both probe keys of `roomSlotItems` use the
unchanged `realDate`, there is no date rollover. -/
theorem shiftMinutes_spec :
    (∀ s, validHHMM s = true → ∀ delta : Int, -1440 ≤ delta →
        validHHMM (shiftMinutes s delta) = true ∧
        (hhmmVal (shiftMinutes s delta) : Int) = ((hhmmVal s : Int) + delta) % 1440) ∧
    (∀ (off : Int) (s : String),
        slotTime1 off s = shiftMinutes s off ∧ slotTime2 off s = shiftMinutes s (60 + off)) ∧
    shiftMinutes "22:00" (60 + 60) = "00:00" ∧
    (∀ (idxByPair : List (String × Index)) (off : Int) (realDate : CivilDate)
        (start sid roomId : String),
        roomSlotItems idxByPair off realDate start sid roomId =
          (probeLookup (mapGet idxByPair (pairKey (sid, roomId))) realDate
            (slotTime1 off start),
           probeLookup (mapGet idxByPair (pairKey (sid, roomId))) realDate
            (slotTime2 off start)) ∧
        (∀ ix : Index, probeLookup (some ix) realDate (slotTime2 off start) =
          mapGet ix (isoFormat realDate ++ "|" ++ slotTime2 off start))) := by
  refine ⟨?_, fun _ _ => ⟨rfl, rfl⟩, by decide, fun _ _ _ _ _ _ => ⟨rfl, fun _ => rfl⟩⟩
  intro s hv delta hd
  obtain ⟨h1, h2, c, m1, m2, heq, hh, hm⟩ := validHHMM_shape s hv
  have hparse : hhmmParse s =
      (digitVal h1 * 10 + digitVal h2, digitVal m1 * 10 + digitVal m2) := by
    unfold hhmmParse
    rw [heq]
  set H := digitVal h1 * 10 + digitVal h2 with hH
  set M := digitVal m1 * 10 + digitVal m2 with hM
  have hD0 : (0 : Int) ≤ (H : Int) * 60 + (M : Int) + delta + 1440 := by
    have : (0 : Int) ≤ (H : Int) := Int.natCast_nonneg H
    have : (0 : Int) ≤ (M : Int) := Int.natCast_nonneg M
    omega
  have htmod : Int.tmod ((H : Int) * 60 + (M : Int) + delta + 1440) 1440 =
      ((H : Int) * 60 + (M : Int) + delta + 1440) % 1440 :=
    Int.tmod_eq_emod hD0 (by norm_num)
  set t : Nat := (((H : Int) * 60 + (M : Int) + delta + 1440) % 1440).toNat with htdef
  have hmod0 : (0 : Int) ≤ ((H : Int) * 60 + (M : Int) + delta + 1440) % 1440 :=
    Int.emod_nonneg _ (by norm_num)
  have hmodlt : ((H : Int) * 60 + (M : Int) + delta + 1440) % 1440 < 1440 :=
    Int.emod_lt_of_pos _ (by norm_num)
  have ht : (t : Int) = ((H : Int) * 60 + (M : Int) + delta) % 1440 := by
    rw [htdef, Int.toNat_of_nonneg hmod0]
    omega
  have htlt : t < 1440 := by omega
  have hshift : shiftMinutes s delta = pad2 (t / 60) ++ ":" ++ pad2 (t % 60) := by
    simp only [shiftMinutes, hparse, htmod]
  have hdata : (pad2 (t / 60) ++ ":" ++ pad2 (t % 60)).data =
      [digitChar (t / 60 / 10), digitChar (t / 60 % 10), ':',
       digitChar (t % 60 / 10), digitChar (t % 60 % 10)] := rfl
  have e1 : isDigitCh (digitChar (t / 60 / 10)) = true := digitChar_isDigit (by omega)
  have e2 : isDigitCh (digitChar (t / 60 % 10)) = true := digitChar_isDigit (by omega)
  have e3 : isDigitCh (digitChar (t % 60 / 10)) = true := digitChar_isDigit (by omega)
  have e4 : isDigitCh (digitChar (t % 60 % 10)) = true := digitChar_isDigit (by omega)
  have f1 : digitVal (digitChar (t / 60 / 10)) = t / 60 / 10 := digitVal_digitChar (by omega)
  have f2 : digitVal (digitChar (t / 60 % 10)) = t / 60 % 10 := digitVal_digitChar (by omega)
  have f3 : digitVal (digitChar (t % 60 / 10)) = t % 60 / 10 := digitVal_digitChar (by omega)
  have f4 : digitVal (digitChar (t % 60 % 10)) = t % 60 % 10 := digitVal_digitChar (by omega)
  constructor
  · rw [hshift]
    unfold validHHMM
    rw [hdata]
    simp only [e1, e2, e3, e4, f1, f2, f3, f4, Bool.and_eq_true, decide_eq_true_eq]
    repeat' apply And.intro
    all_goals first | trivial | omega
  · have hvalout : hhmmVal (shiftMinutes s delta) = t := by
      rw [hshift]
      unfold hhmmVal hhmmParse
      rw [hdata]
      simp only [f1, f2, f3, f4]
      omega
    have hvalin : hhmmVal s = H * 60 + M := by
      unfold hhmmVal
      rw [hparse]
    rw [hvalout, hvalin]
    omega

/-- Witness for C10 at a concrete input: `"22:00"` shifted by `+120` minutes
wraps to a valid `"00:00"`, i.e. `(22*60 + 120) mod 1440 = 0`. -/
theorem shiftMinutes_spec_witness :
    validHHMM (shiftMinutes "22:00" 120) = true ∧
    (hhmmVal (shiftMinutes "22:00" 120) : Int) = ((hhmmVal "22:00" : Int) + 120) % 1440 :=
  shiftMinutes_spec.1 "22:00" (by decide) 120 (by decide)

/-! ### Theorems: pooled-grid aggregation (C1, C9) -/

theorem countP_add_countP_not {α : Type} (p : α → Bool) (l : List α) :
    l.countP p + l.countP (fun a => !p a) = l.length := by
  induction l with
  | nil => simp
  | cons a l ih =>
    by_cases h : p a = true <;> simp [List.countP_cons, h] <;> omega

theorem comfortFold_counts (config : Config) (idxByPair : List (String × Index)) (off : Int)
    (realDate : CivilDate) (start : String) :
    ∀ (rooms : List Room) (acc out : ComfortAcc),
      comfortFold config idxByPair off realDate start acc rooms = .ok out →
      out.free_count = acc.free_count +
        rooms.countP (roomFreeB config idxByPair off realDate start) ∧
      out.busy_count = acc.busy_count +
        rooms.countP (fun r => !(roomFreeB config idxByPair off realDate start r)) := by
  intro rooms
  induction rooms with
  | nil =>
    intro acc out h
    rw [comfortFold] at h
    cases h
    simp
  | cons room rest ih =>
    intro acc out h
    rw [comfortFold, except_bind_ok] at h
    obtain ⟨acc1, hstep, hrest⟩ := h
    obtain ⟨hfc, hbc⟩ := ih acc1 out hrest
    rw [comfortRoomStep, except_bind_ok] at hstep
    obtain ⟨sid, hpick, hbody⟩ := hstep
    have hfb : roomFreeB config idxByPair off realDate start room =
        ((roomVerdict idxByPair off realDate start sid room.id).status == "free") := by
      rw [roomFreeB, hpick]
    by_cases hc :
        ((roomVerdict idxByPair off realDate start sid room.id).status == "free") = true
    · rw [if_pos hc, except_pure_eq] at hbody
      cases hbody
      rw [List.countP_cons, List.countP_cons, hfc, hbc]
      have hpr : roomFreeB config idxByPair off realDate start room = true := by
        rw [hfb]; exact hc
      simp only [hpr, Bool.not_true, if_pos, if_neg]
      simp [ComfortAcc.free_count, ComfortAcc.busy_count]
      omega
    · rw [if_neg hc, except_pure_eq] at hbody
      cases hbody
      rw [List.countP_cons, List.countP_cons, hfc, hbc]
      have hpr : roomFreeB config idxByPair off realDate start room = false := by
        rw [hfb]; exact Bool.not_eq_true _ ▸ (by simpa using hc)
      simp [hpr]
      omega

/-- **C9**: every comfort-grid cell partitions the pool: each room lands in
exactly one of `free_count`/`busy_count` (missing rooms included, there is no
third bucket), so `free_count + busy_count = total_count` and `total_count`
is the number of comfort rooms. -/
theorem comfortCell_partition (config : Config) (idxByPair : List (String × Index))
    (off : Int) (uiDate : CivilDate) (start : String) (cell : ComfortCell)
    (h : comfortCell config idxByPair off uiDate start = .ok cell) :
    cell.free_count + cell.busy_count = cell.total_count ∧
    cell.total_count = (comfortRooms config.rooms).length := by
  rw [comfortCell, except_bind_ok] at h
  obtain ⟨acc, hfold, hpure⟩ := h
  rw [except_pure_eq] at hpure
  cases hpure
  obtain ⟨hfc, hbc⟩ :=
    comfortFold_counts config idxByPair off (realDateForStart uiDate start) start
      (comfortRooms config.rooms) ⟨0, 0, none⟩ acc hfold
  refine ⟨?_, rfl⟩
  simp only [hfc, hbc]
  simpa using countP_add_countP_not
    (roomFreeB config idxByPair off (realDateForStart uiDate start) start)
    (comfortRooms config.rooms)

/-- Witness for C9 at the §8 scenario: the 02:00 cell is `{1, 2, 3, none}` and
indeed 1 + 2 = 3 = pool size. -/
theorem comfortCell_partition_witness :
    (1 : Nat) + 2 = 3 ∧ (3 : Nat) = (comfortRooms cfg3.rooms).length :=
  comfortCell_partition cfg3 idx3 0 ⟨2025, 1, 20⟩ "02:00" ⟨1, 2, 3, none⟩ (by rfl)

/-- **Counterexample to C1 as stated**: in the §8 scenario (three comfort
rooms, two with no upstream records at either probe time, one free), the
02:00 cell produced by the comfort handler is
`{free_count := 1, busy_count := 2, total_count := 3, min_price := none}` —
the two missing rooms are counted in `busy_count`, not excluded, so the cell
is **not** `{free_count := 1, busy_count := 0, total_count := 3}`. -/
theorem comfortGrid_missing_counted_busy :
    mapGet ((comfortHandler cfg3 oracle3 0 ⟨2025, 1, 20⟩).toOption.getD []) "02:00" =
      some ⟨1, 2, 3, none⟩ ∧
    mapGet ((comfortHandler cfg3 oracle3 0 ⟨2025, 1, 20⟩).toOption.getD []) "02:00" ≠
      some ⟨1, 0, 3, none⟩ := by
  constructor
  · rfl
  · decide

/-- **C1 (amended)**: in the pooled grid, `free_count` counts exactly the
rooms whose verdict is free, and a room whose verdict is `missing` is counted
in `busy_count` together with the busy rooms (`busy_count` counts every
non-free room); `total_count` is the number of rooms in the pool.  In the §8
scenario the cell is `{free_count := 1, busy_count := 2, total_count := 3}`
(see `comfortGrid_missing_counted_busy`). -/
theorem comfortCell_counts (config : Config) (idxByPair : List (String × Index))
    (off : Int) (uiDate : CivilDate) (start : String) (cell : ComfortCell)
    (h : comfortCell config idxByPair off uiDate start = .ok cell) :
    cell.free_count = (comfortRooms config.rooms).countP
      (roomFreeB config idxByPair off (realDateForStart uiDate start) start) ∧
    cell.busy_count = (comfortRooms config.rooms).countP
      (fun r => !(roomFreeB config idxByPair off (realDateForStart uiDate start) start r)) ∧
    cell.total_count = (comfortRooms config.rooms).length := by
  rw [comfortCell, except_bind_ok] at h
  obtain ⟨acc, hfold, hpure⟩ := h
  rw [except_pure_eq] at hpure
  cases hpure
  obtain ⟨hfc, hbc⟩ :=
    comfortFold_counts config idxByPair off (realDateForStart uiDate start) start
      (comfortRooms config.rooms) ⟨0, 0, none⟩ acc hfold
  exact ⟨by simpa using hfc, by simpa using hbc, rfl⟩

/-- Witness for the amended C1 at the §8 scenario: free_count 1 = one free
room, busy_count 2 = the two missing rooms. -/
theorem comfortCell_counts_witness :
    (1 : Nat) = (comfortRooms cfg3.rooms).countP
      (roomFreeB cfg3 idx3 0 (realDateForStart ⟨2025, 1, 20⟩ "02:00") "02:00") ∧
    (2 : Nat) = (comfortRooms cfg3.rooms).countP
      (fun r => !(roomFreeB cfg3 idx3 0 (realDateForStart ⟨2025, 1, 20⟩ "02:00") "02:00" r)) ∧
    (3 : Nat) = (comfortRooms cfg3.rooms).length :=
  comfortCell_counts cfg3 idx3 0 ⟨2025, 1, 20⟩ "02:00" ⟨1, 2, 3, none⟩ (by rfl)

/-! ### Theorems: fail-fast error propagation (C7) -/

theorem except_map_error {ε α β : Type} (f : α → β) (x : Except ε α) (e : ε) :
    x.map f = .error e ↔ x = .error e := by
  cases x <;> simp [Except.map]

theorem apiGet_error_of (resp : HttpResp)
    (h : ¬ resp.ok = true ∨ ∃ b, resp.body = some b ∧ b.result = some false) :
    ∃ e, apiGet resp = .error e := by
  rw [apiGet]
  cases hok : resp.ok with
  | false => exact ⟨.httpError resp.status, rfl⟩
  | true =>
    rcases h with h | ⟨b, hb, hres⟩
    · exact absurd hok h
    · refine ⟨.resultFalse (b.error_message.getD "Upstream returned result=false"), ?_⟩
      simp [extractUpstreamError, hb, hres]

theorem fetchAllPairs_fail (oracle : Oracle) :
    ∀ l : List (String × String),
      (∃ p ∈ l, ∃ e, fetchIndexedRentalTimes oracle p.1 p.2 = .error e) →
      ∃ err, fetchAllPairs oracle l = .error err ∧
        ∃ q ∈ l, fetchIndexedRentalTimes oracle q.1 q.2 = .error err := by
  intro l
  induction l with
  | nil => rintro ⟨p, hp, _⟩; cases hp
  | cons p0 rest ih =>
    rintro ⟨p, hp, e, he⟩
    cases hf : fetchIndexedRentalTimes oracle p0.1 p0.2 with
    | error e0 =>
      refine ⟨e0, ?_, p0, List.mem_cons_self _ _, hf⟩
      rw [fetchAllPairs, except_bind_error]
      exact Or.inl hf
    | ok ix =>
      have hp2 : p ∈ rest := by
        rcases List.mem_cons.mp hp with rfl | hp2
        · rw [he] at hf; cases hf
        · exact hp2
      obtain ⟨err, herr, q, hq, hqe⟩ := ih ⟨p, hp2, e, he⟩
      refine ⟨err, ?_, q, List.mem_cons_of_mem _ hq, hqe⟩
      rw [fetchAllPairs, except_bind_error]
      refine Or.inr ⟨ix, hf, ?_⟩
      rw [except_bind_error]
      exact Or.inl herr

/-- **C7**: if any single upstream fetch of a comfort-grid request fails —
at the HTTP level (`!resp.ok`) or as an in-band `result:false` semantic
failure — the handler returns an error response carrying the failure details
of a failing pair, and no grid at all. -/
theorem comfortHandler_failfast (config : Config) (oracle : Oracle) (off : Int)
    (uiDate : CivilDate) (entries : List (String × String)) (p : String × String)
    (hne : comfortRooms config.rooms ≠ [])
    (hent : comfortEntries config uiDate STARTS = .ok entries)
    (hp : p ∈ (buildPairs entries).map Prod.snd)
    (hfail : ¬ (oracle p.1 p.2).ok = true ∨
      ∃ b, (oracle p.1 p.2).body = some b ∧ b.result = some false) :
    (∃ err, comfortHandler config oracle off uiDate = .error (.api err) ∧
      ∃ q ∈ (buildPairs entries).map Prod.snd,
        fetchIndexedRentalTimes oracle q.1 q.2 = .error err) ∧
    ∀ grid, comfortHandler config oracle off uiDate ≠ .ok grid := by
  obtain ⟨e, he⟩ := apiGet_error_of _ hfail
  have hfe : fetchIndexedRentalTimes oracle p.1 p.2 = .error e := by
    rw [fetchIndexedRentalTimes, except_map_error]
    exact he
  obtain ⟨err, herr, q, hq, hqe⟩ :=
    fetchAllPairs_fail oracle ((buildPairs entries).map Prod.snd) ⟨p, hp, e, hfe⟩
  have hie : (comfortRooms config.rooms).isEmpty = false := by
    cases hcc : comfortRooms config.rooms with
    | nil => exact absurd hcc hne
    | cons a l => rfl
  have hmain : comfortHandler config oracle off uiDate = .error (.api err) := by
    rw [comfortHandler]
    simp [hie, hent, herr, Bind.bind, Except.bind, Except.mapError, Pure.pure, Except.pure]
  exact ⟨⟨err, hmain, q, hq, hqe⟩, fun grid hg => by rw [hmain] at hg; cases hg⟩

/-- Witness for C7: with the §8 config and an upstream that always returns
HTTP 503, the comfort handler returns an API error and no grid. -/
theorem comfortHandler_failfast_witness :
    (∃ err, comfortHandler cfg3 oracleDown 0 ⟨2025, 1, 20⟩ = .error (.api err) ∧
      ∃ q ∈ (buildPairs entries3).map Prod.snd,
        fetchIndexedRentalTimes oracleDown q.1 q.2 = .error err) ∧
    ∀ grid, comfortHandler cfg3 oracleDown 0 ⟨2025, 1, 20⟩ ≠ .ok grid :=
  comfortHandler_failfast cfg3 oracleDown 0 ⟨2025, 1, 20⟩ entries3 ("S", "r1")
    (by decide) (by rfl) (by decide) (Or.inl (by decide))

/-! ### Theorems: pair deduplication (C6) -/

theorem pipe_split : ∀ (l1 r1 l2 r2 : List Char), '|' ∉ l1 → '|' ∉ l2 →
    l1 ++ '|' :: r1 = l2 ++ '|' :: r2 → l1 = l2 ∧ r1 = r2 := by
  intro l1
  induction l1 with
  | nil =>
    intro r1 l2 r2 h1 h2 h
    cases l2 with
    | nil => simpa using h
    | cons c cs =>
      simp only [List.nil_append, List.cons_append, List.cons.injEq] at h
      exact absurd (by rw [h.1]; exact List.mem_cons_self c cs) h2
  | cons c cs ih =>
    intro r1 l2 r2 h1 h2 h
    cases l2 with
    | nil =>
      simp only [List.nil_append, List.cons_append, List.cons.injEq] at h
      exact absurd (by rw [← h.1]; exact List.mem_cons_self c cs) h1
    | cons d ds =>
      simp only [List.cons_append, List.cons.injEq] at h
      obtain ⟨hcd, htail⟩ := h
      subst hcd
      have h1x : '|' ∉ cs := fun hx => h1 (List.mem_cons_of_mem _ hx)
      have h2x : '|' ∉ ds := fun hx => h2 (List.mem_cons_of_mem _ hx)
      obtain ⟨he, hr⟩ := ih r1 ds r2 h1x h2x htail
      exact ⟨by rw [he], hr⟩

theorem pairKey_inj {p q : String × String} (hp : noPipe p.1) (hq : noPipe q.1)
    (h : pairKey p = pairKey q) : p = q := by
  obtain ⟨a1, b1⟩ := p
  obtain ⟨a2, b2⟩ := q
  have hd : a1.data ++ '|' :: b1.data = a2.data ++ '|' :: b2.data := by
    have h2 := congrArg String.data h
    simpa [pairKey, String.data_append,
      show ("|" : String).data = ['|'] from rfl, List.append_assoc] using h2
  obtain ⟨hA, hB⟩ := pipe_split a1.data b1.data a2.data b2.data hp hq hd
  cases String.ext hA
  cases String.ext hB
  rfl

theorem mapSet_mem_self {α : Type} (m : List (String × α)) (k : String) (v : α) :
    (k, v) ∈ mapSet m k v := by
  rw [mapSet]
  split
  · rename_i hany
    rw [List.any_eq_true] at hany
    obtain ⟨e, he, hek⟩ := hany
    rw [List.mem_map]
    exact ⟨e, he, by rw [if_pos hek]⟩
  · exact List.mem_append_right _ (List.mem_singleton.mpr rfl)

theorem mapSet_mem_of_mem {α : Type} (m : List (String × α)) (k0 : String) (v0 : α)
    (k : String) (v : α) (hmem : (k0, v0) ∈ m) (himp : k0 = k → v0 = v) :
    (k0, v0) ∈ mapSet m k v := by
  rw [mapSet]
  split
  · rw [List.mem_map]
    refine ⟨(k0, v0), hmem, ?_⟩
    by_cases hk : (((k0, v0) : String × α).1 == k) = true
    · rw [if_pos hk]
      have hkk : k0 = k := by simpa using hk
      rw [← hkk, himp hkk]
    · rw [if_neg hk]
  · exact List.mem_append_left _ hmem

theorem mapSet_mem_cases {α : Type} (m : List (String × α)) (k : String) (v : α)
    (e : String × α) (h : e ∈ mapSet m k v) : e ∈ m ∨ e = (k, v) := by
  rw [mapSet] at h
  split at h
  · rw [List.mem_map] at h
    obtain ⟨e0, he0, heq⟩ := h
    by_cases hk : (e0.1 == k) = true
    · rw [if_pos hk] at heq
      exact Or.inr heq.symm
    · rw [if_neg hk] at heq
      exact Or.inl (heq ▸ he0)
  · rcases List.mem_append.mp h with h | h
    · exact Or.inl h
    · exact Or.inr (List.mem_singleton.mp h)

theorem mapSet_inv (m : List (String × (String × String))) (p : String × String)
    (hm : pairsInv m) : pairsInv (mapSet m (pairKey p) p) := by
  obtain ⟨hcoh, hnd⟩ := hm
  rw [mapSet]
  split
  · constructor
    · intro e he
      rw [List.mem_map] at he
      obtain ⟨e0, he0, heq⟩ := he
      by_cases hk : (e0.1 == pairKey p) = true
      · rw [if_pos hk] at heq
        rw [← heq]
      · rw [if_neg hk] at heq
        rw [← heq]
        exact hcoh e0 he0
    · have hsame : (m.map (fun e => if (e.1 == pairKey p) = true then (pairKey p, p) else e)).map
          Prod.fst = m.map Prod.fst := by
        rw [List.map_map]
        apply List.map_congr_left
        intro e he
        by_cases hk : (e.1 == pairKey p) = true
        · simp only [Function.comp_apply, if_pos hk]
          exact (show e.1 = pairKey p by simpa using hk).symm
        · simp only [Function.comp_apply, if_neg hk]
      rw [hsame]
      exact hnd
  · rename_i hany
    constructor
    · intro e he
      rcases List.mem_append.mp he with h | h
      · exact hcoh e h
      · rw [List.mem_singleton.mp h]
    · rw [List.map_append]
      have hnotin : pairKey p ∉ m.map Prod.fst := by
        intro hmem
        rw [List.mem_map] at hmem
        obtain ⟨e, he, hfst⟩ := hmem
        rw [List.any_eq_true] at hany
        exact hany ⟨e, he, by simp [hfst]⟩
      refine hnd.append (List.nodup_singleton _) (fun a ha1 ha2 => ?_)
      rw [List.mem_singleton.mp ha2] at ha1
      exact hnotin ha1

theorem pairsFold_inv : ∀ (entries : List (String × String))
    (m : List (String × (String × String))), pairsInv m →
    pairsInv (entries.foldl (fun m p => mapSet m (pairKey p) p) m) := by
  intro entries
  induction entries with
  | nil => exact fun m hm => hm
  | cons q rest ih => exact fun m hm => ih _ (mapSet_inv m q hm)

theorem pairsFold_complete : ∀ (entries : List (String × String))
    (m : List (String × (String × String))) (p : String × String),
    (∀ r ∈ entries, noPipe r.1) → noPipe p.1 →
    ((pairKey p, p) ∈ m ∨ p ∈ entries) →
    (pairKey p, p) ∈ entries.foldl (fun m p => mapSet m (pairKey p) p) m := by
  intro entries
  induction entries with
  | nil =>
    intro m p _ _ hmem
    rcases hmem with h | h
    · exact h
    · cases h
  | cons q rest ih =>
    intro m p hnp hp hmem
    apply ih (mapSet m (pairKey q) q) p (fun r hr => hnp r (List.mem_cons_of_mem _ hr)) hp
    rcases hmem with h | h
    · left
      apply mapSet_mem_of_mem _ _ _ _ _ h
      intro hk
      have := pairKey_inj hp (hnp q (List.mem_cons_self _ _)) hk
      rw [this]
    · rcases List.mem_cons.mp h with rfl | h2
      · exact Or.inl (mapSet_mem_self m (pairKey p) p)
      · exact Or.inr h2

theorem pairsFold_sound : ∀ (entries : List (String × String))
    (m : List (String × (String × String))) (e : String × (String × String)),
    e ∈ entries.foldl (fun m p => mapSet m (pairKey p) p) m → e ∈ m ∨ e.2 ∈ entries := by
  intro entries
  induction entries with
  | nil => exact fun m e h => Or.inl h
  | cons q rest ih =>
    intro m e h
    rcases ih _ e h with h2 | h2
    · rcases mapSet_mem_cases m (pairKey q) q e h2 with h3 | h3
      · exact Or.inl h3
      · right
        rw [h3]
        exact List.mem_cons_self _ _
    · exact Or.inr (List.mem_cons_of_mem _ h2)

theorem fetchAllPairs_lookup (oracle : Oracle) :
    ∀ (l : List (String × String)) (res : List (String × Index)),
      fetchAllPairs oracle l = .ok res → (l.map pairKey).Nodup →
      ∀ p ∈ l, ∃ ix, fetchIndexedRentalTimes oracle p.1 p.2 = .ok ix ∧
        mapGet res (pairKey p) = some ix := by
  intro l
  induction l with
  | nil =>
    intro res h hn p hp
    cases hp
  | cons q rest ih =>
    intro res h hn p hp
    rw [fetchAllPairs, except_bind_ok] at h
    obtain ⟨ix, hq, h⟩ := h
    rw [except_bind_ok] at h
    obtain ⟨tail, htail, h⟩ := h
    rw [except_pure_eq] at h
    cases h
    rw [List.map_cons] at hn
    rcases List.mem_cons.mp hp with rfl | hp2
    · refine ⟨ix, hq, ?_⟩
      rw [mapGet, List.find?_cons_of_pos]
      · rfl
      · simp
    · have hne : pairKey q ≠ pairKey p := by
        have hni : pairKey q ∉ rest.map pairKey := (List.nodup_cons.mp hn).1
        intro hh
        exact hni (hh ▸ List.mem_map_of_mem pairKey hp2)
      obtain ⟨ix2, hf2, hl2⟩ := ih tail htail (List.nodup_cons.mp hn).2 p hp2
      refine ⟨ix2, hf2, ?_⟩
      rw [mapGet, List.find?_cons_of_neg]
      · exact hl2
      · simp [hne]

theorem resolveComfortRooms_chr (config : Config) (realDate : CivilDate) (start : String) :
    ∀ (rooms : List Room) (es : List (String × String)),
      resolveComfortRooms config realDate start rooms = .ok es →
      (∀ room ∈ rooms, ∃ sid,
          pickComfortServiceId config room.group realDate start = .ok sid ∧
          (sid, room.id) ∈ es) ∧
      (∀ p ∈ es, ∃ room ∈ rooms,
          pickComfortServiceId config room.group realDate start = .ok p.1 ∧
          p.2 = room.id) := by
  intro rooms
  induction rooms with
  | nil =>
    intro es h
    rw [resolveComfortRooms] at h
    cases h
    exact ⟨fun room hr => absurd hr (List.not_mem_nil _),
           fun p hp => absurd hp (List.not_mem_nil _)⟩
  | cons room rest ih =>
    intro es h
    rw [resolveComfortRooms, except_bind_ok] at h
    obtain ⟨sid, hsid, h⟩ := h
    rw [except_bind_ok] at h
    obtain ⟨tail, htail, h⟩ := h
    rw [except_pure_eq] at h
    cases h
    obtain ⟨ihf, ihb⟩ := ih tail htail
    constructor
    · intro r hr
      rcases List.mem_cons.mp hr with rfl | hr2
      · exact ⟨sid, hsid, List.mem_cons_self _ _⟩
      · obtain ⟨sid2, hs2, hmem⟩ := ihf r hr2
        exact ⟨sid2, hs2, List.mem_cons_of_mem _ hmem⟩
    · intro p hp
      rcases List.mem_cons.mp hp with rfl | hp2
      · exact ⟨room, List.mem_cons_self _ _, hsid, rfl⟩
      · obtain ⟨r, hr, hpk, hid⟩ := ihb p hp2
        exact ⟨r, List.mem_cons_of_mem _ hr, hpk, hid⟩

theorem comfortEntries_chr (config : Config) (uiDate : CivilDate) :
    ∀ (starts : List String) (entries : List (String × String)),
      comfortEntries config uiDate starts = .ok entries →
      (∀ start ∈ starts, ∀ room ∈ comfortRooms config.rooms, ∃ sid,
          pickComfortServiceId config room.group (realDateForStart uiDate start) start =
            .ok sid ∧ (sid, room.id) ∈ entries) ∧
      (∀ p ∈ entries, ∃ start ∈ starts, ∃ room ∈ comfortRooms config.rooms,
          pickComfortServiceId config room.group (realDateForStart uiDate start) start =
            .ok p.1 ∧ p.2 = room.id) := by
  intro starts
  induction starts with
  | nil =>
    intro entries h
    rw [comfortEntries] at h
    cases h
    exact ⟨fun s hs => absurd hs (List.not_mem_nil _),
           fun p hp => absurd hp (List.not_mem_nil _)⟩
  | cons s rest ih =>
    intro entries h
    rw [comfortEntries, except_bind_ok] at h
    obtain ⟨es, hes, h⟩ := h
    rw [except_bind_ok] at h
    obtain ⟨tail, htail, h⟩ := h
    rw [except_pure_eq] at h
    cases h
    obtain ⟨rf, rb⟩ := resolveComfortRooms_chr config (realDateForStart uiDate s) s
      (comfortRooms config.rooms) es hes
    obtain ⟨ihf, ihb⟩ := ih tail htail
    constructor
    · intro start hstart room hroom
      rcases List.mem_cons.mp hstart with rfl | h2
      · obtain ⟨sid, hx1, hx2⟩ := rf room hroom
        exact ⟨sid, hx1, List.mem_append_left _ hx2⟩
      · obtain ⟨sid, hx1, hx2⟩ := ihf start h2 room hroom
        exact ⟨sid, hx1, List.mem_append_right _ hx2⟩
    · intro p hp
      rcases List.mem_append.mp hp with h2 | h2
      · obtain ⟨room, hr, h3, h4⟩ := rb p h2
        exact ⟨s, List.mem_cons_self _ _, room, hr, h3, h4⟩
      · obtain ⟨start, hs2, room, hr, h3, h4⟩ := ihb p h2
        exact ⟨start, List.mem_cons_of_mem _ hs2, room, hr, h3, h4⟩

theorem eliteEntries_chr (config : Config) (uiDate : CivilDate) (eliteId : String) :
    ∀ (starts : List String) (es : List (String × String)),
      eliteEntries config uiDate eliteId starts = .ok es →
      (∀ start ∈ starts, ∃ sid,
          pickEliteServiceId config (realDateForStart uiDate start) start = .ok sid ∧
          (sid, eliteId) ∈ es) ∧
      (∀ p ∈ es, ∃ start ∈ starts,
          pickEliteServiceId config (realDateForStart uiDate start) start = .ok p.1 ∧
          p.2 = eliteId) := by
  intro starts
  induction starts with
  | nil =>
    intro es h
    rw [eliteEntries] at h
    cases h
    exact ⟨fun s hs => absurd hs (List.not_mem_nil _),
           fun p hp => absurd hp (List.not_mem_nil _)⟩
  | cons s rest ih =>
    intro es h
    rw [eliteEntries, except_bind_ok] at h
    obtain ⟨sid, hsid, h⟩ := h
    rw [except_bind_ok] at h
    obtain ⟨tail, htail, h⟩ := h
    rw [except_pure_eq] at h
    cases h
    obtain ⟨ihf, ihb⟩ := ih tail htail
    constructor
    · intro start hstart
      rcases List.mem_cons.mp hstart with rfl | h2
      · exact ⟨sid, hsid, List.mem_cons_self _ _⟩
      · obtain ⟨sid2, hx1, hx2⟩ := ihf start h2
        exact ⟨sid2, hx1, List.mem_cons_of_mem _ hx2⟩
    · intro p hp
      rcases List.mem_cons.mp hp with rfl | hp2
      · exact ⟨s, List.mem_cons_self _ _, hsid, rfl⟩
      · obtain ⟨start, hs2, h3, h4⟩ := ihb p hp2
        exact ⟨start, List.mem_cons_of_mem _ hs2, h3, h4⟩

/-- **C6**: for every grid request, the set of upstream queries issued equals
the set of distinct `(service_id, room_id)` pairs obtained by resolving all 12
slots (and, for the pooled category, all rooms): the deduplicated value list
of the `pairs` map has no duplicates (one fetch per distinct pair), its
members are exactly the resolved entries, every resolved entry of either
handler's pairs loop is in it, and when the fan-out succeeds every pair's key
in `idxByPair` yields exactly the index fetched for that pair (which every
slot/room then reads).  Service ids must not contain the `|` key separator. -/
theorem gridDedup_spec (config : Config) (uiDate : CivilDate) (oracle : Oracle) :
    (∀ entries : List (String × String),
        (∀ r ∈ entries, noPipe r.1) →
        ((buildPairs entries).map Prod.snd).Nodup ∧
        (∀ p : String × String, p ∈ (buildPairs entries).map Prod.snd ↔ p ∈ entries) ∧
        (∀ res, fetchAllPairs oracle ((buildPairs entries).map Prod.snd) = .ok res →
            ∀ p ∈ (buildPairs entries).map Prod.snd,
              ∃ ix, fetchIndexedRentalTimes oracle p.1 p.2 = .ok ix ∧
                mapGet res (pairKey p) = some ix)) ∧
    (∀ entries, comfortEntries config uiDate STARTS = .ok entries →
        (∀ start ∈ STARTS, ∀ room ∈ comfortRooms config.rooms, ∃ sid,
            pickComfortServiceId config room.group (realDateForStart uiDate start) start =
              .ok sid ∧ (sid, room.id) ∈ entries) ∧
        (∀ p ∈ entries, ∃ start ∈ STARTS, ∃ room ∈ comfortRooms config.rooms,
            pickComfortServiceId config room.group (realDateForStart uiDate start) start =
              .ok p.1 ∧ p.2 = room.id)) ∧
    (∀ eliteId entries, eliteEntries config uiDate eliteId STARTS = .ok entries →
        (∀ start ∈ STARTS, ∃ sid,
            pickEliteServiceId config (realDateForStart uiDate start) start = .ok sid ∧
            (sid, eliteId) ∈ entries) ∧
        (∀ p ∈ entries, ∃ start ∈ STARTS,
            pickEliteServiceId config (realDateForStart uiDate start) start = .ok p.1 ∧
            p.2 = eliteId)) := by
  refine ⟨?_, fun entries h => comfortEntries_chr config uiDate STARTS entries h,
    fun eid entries h => eliteEntries_chr config uiDate eid STARTS entries h⟩
  intro entries hnp
  have hinv : pairsInv (buildPairs entries) :=
    pairsFold_inv entries []
      ⟨fun e he => absurd he (List.not_mem_nil _), List.nodup_nil⟩
  have hkeys : (buildPairs entries).map Prod.fst =
      ((buildPairs entries).map Prod.snd).map pairKey := by
    rw [List.map_map]
    apply List.map_congr_left
    intro e he
    exact hinv.1 e he
  have hvnodup : ((buildPairs entries).map Prod.snd).Nodup := by
    have hk := hinv.2
    rw [hkeys] at hk
    exact List.Nodup.of_map _ hk
  refine ⟨hvnodup, ?_, ?_⟩
  · intro p
    constructor
    · intro hp
      rw [List.mem_map] at hp
      obtain ⟨e, he, rfl⟩ := hp
      rcases pairsFold_sound entries [] e he with h | h
      · cases h
      · exact h
    · intro hp
      have hmem := pairsFold_complete entries [] p hnp (hnp p hp) (Or.inr hp)
      rw [List.mem_map]
      exact ⟨(pairKey p, p), hmem, rfl⟩
  · intro res hres p hp
    apply fetchAllPairs_lookup oracle _ res hres _ p hp
    rw [← hkeys]
    exact hinv.2

/-- Witness for C6 at the §8 scenario: the 36 resolved entries deduplicate to
three distinct pairs, pair membership matches the entries, and the joined
index maps pair `("S", "r1")` to exactly the index fetched for it. -/
theorem gridDedup_spec_witness :
    ((buildPairs entries3).map Prod.snd).Nodup ∧
    (("S", "r1") ∈ (buildPairs entries3).map Prod.snd ↔ ("S", "r1") ∈ entries3) ∧
    (∃ ix, fetchIndexedRentalTimes oracle3 "S" "r1" = .ok ix ∧
      mapGet idx3 (pairKey ("S", "r1")) = some ix) := by
  obtain ⟨a, b, c⟩ := (gridDedup_spec cfg3 ⟨2025, 1, 20⟩ oracle3).1 entries3 (by decide)
  exact ⟨a, b ("S", "r1"), c idx3 (by rfl) ("S", "r1") (by decide)⟩

end Aok
